import Mathlib

/-!
Verification of the constraint-solver HTTP service (`src/solver/main.py`)
against its specification.

The service wraps the Z3 engine: `solve_constraint` submits the request's
constraint text to a fresh `Solver`, checks satisfiability, and on `sat`
normalizes the model into a list of `{name, value}` entries.  The engine
itself (Z3) is an external collaborator; we embed its documented value-level
behaviour (numeral decoding, the decimal rendering of rationals) and the
Python-level operations the handler applies to it.
-/

namespace Aurora

/-- An engine-native value bound to a declared symbol in a satisfying model,
tagged by which of the code's type probes recognizes it
(`is_int`, `is_bool`, `is_rational_value`, `is_string_value`, fallback).
The probes are mutually exclusive on model values: an `Int`-sorted numeral,
a boolean constant, a `Real`-sorted rational numeral, a string value, or
anything else (algebraic numbers, uninterpreted sort values, function
interpretations), for which only the textual rendering `str(val)` is used. -/
inductive EngineValue where
  | intVal (n : ℤ)
  | boolVal (b : Bool)
  | ratVal (q : ℚ)
  | strVal (s : String)
  | other (rendering : String)
deriving DecidableEq

/-- An engine model as the `for decl in model_result` loop observes it:
the declarations in engine enumeration order, each with its textual name
(`str(decl)`) and its value (`model_result[decl]`). -/
abbrev EngineModel := List (String × EngineValue)

/-- The fractional digits Z3 prints for `num/den` (with `num < den`),
truncating digit by digit, stopping early when the remainder vanishes;
the flag reports whether a nonzero remainder survived all `prec` digits
(Z3 then appends a question mark).  Mirrors `mpq::display_decimal`. -/
def fracDigits (num den : ℕ) : ℕ → (List ℕ × Bool)
  | 0 => ([], num ≠ 0)
  | prec + 1 =>
      if num = 0 then ([], false)
      else
        let d := (num * 10) / den
        let r := (num * 10) % den
        let (ds, inexact) := fracDigits r den prec
        (d :: ds, inexact)

/-- `RatNumRef.as_decimal(prec)`: Z3 renders a rational as a decimal string
with at most `prec` fractional digits; an integral rational prints with no
decimal point, and a value that cannot be represented exactly within `prec`
digits ends with a question mark (z3 docstring: `RealVal("1/3").as_decimal(3)`
is the string `0.333` followed by a question mark). -/
def as_decimal (q : ℚ) (prec : ℕ) : String :=
  if q.den = 1 then toString q.num
  else
    let sign := if q < 0 then "-" else ""
    let aq : ℚ := |q|
    let ipart : ℕ := aq.num.toNat / aq.den
    let fnum : ℕ := aq.num.toNat % aq.den
    let (ds, inexact) := fracDigits fnum aq.den prec
    sign ++ toString ipart ++ "." ++ String.join (ds.map (fun d => toString d))
      ++ (if inexact then "?" else "")

/-- Value of a digit character. -/
def digitVal (c : Char) : ℕ := c.toNat - 48

/-- Natural number denoted by a digit list (most significant first). -/
def digitsToNat (l : List Char) : ℕ := l.foldl (fun a c => a * 10 + digitVal c) 0

/-- Python's `float()` applied to a decimal string, restricted to plain
decimal literals (optional sign, integer part, optional fractional part),
which covers everything `as_decimal` can produce; any other string — in
particular one ending in the question mark Z3 uses to flag truncation —
raises `ValueError`, embedded as `none`.  The parsed value is kept as the
exact rational the literal denotes (IEEE rounding is not modelled; no claim
below depends on it). -/
def pythonFloat (s : String) : Option ℚ :=
  let cs := s.data
  let (neg, cs1) := match cs with
    | '-' :: rest => (true, rest)
    | _ => (false, cs)
  let sign : ℤ := if neg then -1 else 1
  let ip := cs1.takeWhile (fun c => c.isDigit)
  let rest := cs1.dropWhile (fun c => c.isDigit)
  if ip.isEmpty then none
  else
    match rest with
    | [] => some (mkRat (sign * digitsToNat ip) 1)
    | '.' :: fp =>
        if fp.all (fun c => c.isDigit) ∧ ¬ fp.isEmpty then
          some (mkRat (sign * (digitsToNat ip * 10 ^ fp.length + digitsToNat fp))
            (10 ^ fp.length))
        else none
    | _ => none

/-- The decoded JSON-representable value placed in a model entry:
the tagged union {integer, boolean, float, string} (the opaque fallback
is emitted as a string). -/
inductive JsonValue where
  | int (n : ℤ)
  | bool (b : Bool)
  | float (q : ℚ)
  | str (s : String)
deriving DecidableEq

/-- One `{"name": ..., "value": ...}` object of the response model array. -/
structure ModelEntry where
  name : String
  value : JsonValue
deriving DecidableEq

/-- The per-value dispatch of the normalization loop (main.py lines 40–49):
`is_int` → `val.as_long()` (z3's `as_long` is `int(self.as_string())`, the
exact arbitrary-precision integer); `is_bool` → `bool(val)` (exact, via
`is_true`/`is_false` on the model's boolean constant); `is_rational_value` →
`float(val.as_decimal(10))`, which raises `ValueError` when the decimal
string carries Z3's inexactness marker; `is_string_value` →
`val.as_string()` (the unquoted content); otherwise `str(val)`. -/
def decodeValue : EngineValue → Except String JsonValue
  | .intVal n => .ok (.int n)
  | .boolVal b => .ok (.bool b)
  | .ratVal q =>
      match pythonFloat (as_decimal q 10) with
      | some f => .ok (.float f)
      | none => .error ("could not convert string to float: " ++ as_decimal q 10)
  | .strVal s => .ok (.str s)
  | .other r => .ok (.str r)

/-- The normalization loop (main.py lines 36–50): for each declaration in
engine order, decode its value and append `{"name": str(decl), "value": v}`;
an exception raised while decoding aborts the whole loop (and is caught by
the handler's `except`). -/
def normalizeModel : EngineModel → Except String (List ModelEntry)
  | [] => .ok []
  | (name, val) :: rest =>
      match decodeValue val with
      | .error e => .error e
      | .ok v =>
          match normalizeModel rest with
          | .error e => .error e
          | .ok tail => .ok ({ name := name, value := v } :: tail)

/-- The body of `SolverResponse`: `check_result` and the optional model
array (`Optional[List[dict]]`). -/
structure SolverResponse where
  check_result : String
  model : Option (List ModelEntry)
deriving DecidableEq

/-- The `HTTPException` the handler raises: status code and detail string. -/
structure HTTPError where
  status : ℕ
  detail : String
deriving DecidableEq

/-- What the engine does with one submitted constraint text: the combined
behaviour of `Solver()`, `from_string` and `check` — either some stage
raises (parse error, internal fault), or a verdict is returned, with the
model available on `sat`.  Since the handler builds a fresh `Solver` per
request, the outcome is a function of the submitted text alone. -/
inductive EngineOutcome where
  | raises (msg : String)
  | sat (model : EngineModel)
  | unsat
  | unknown
deriving DecidableEq

/-- `solve_constraint` (main.py lines 19–66): run the engine on the request's
constraint; on `sat` normalize the model and answer
`{check_result: "sat", model: array}`; on `unsat`/`unknown` answer with a
null model; any exception raised inside the `try` block (from submission,
checking, or normalization) becomes `HTTPException(400, "Error processing
constraint: " ++ str(e))`. -/
def solve_constraint (engine : String → EngineOutcome) (constraint : String) :
    Except HTTPError SolverResponse :=
  match engine constraint with
  | .raises msg => .error ⟨400, "Error processing constraint: " ++ msg⟩
  | .sat m =>
      match normalizeModel m with
      | .ok arr => .ok ⟨"sat", some arr⟩
      | .error msg => .error ⟨400, "Error processing constraint: " ++ msg⟩
  | .unsat => .ok ⟨"unsat", none⟩
  | .unknown => .ok ⟨"unknown", none⟩

/-- A batch of independent requests: the module keeps no state between
requests (a fresh `Solver` is constructed inside the handler, and the module
has no mutable globals), so serving a request list is a plain map. -/
def handleRequests (engine : String → EngineOutcome) (reqs : List String) :
    List (Except HTTPError SolverResponse) :=
  reqs.map (solve_constraint engine)

end Aurora

namespace Aurora

/-- The detail string of every handler error starts with a fixed non-empty
prefix, so it is never the empty string. -/
theorem errorDetail_ne_empty (msg : String) :
    "Error processing constraint: " ++ msg ≠ "" := by
  intro h
  have h2 := congrArg String.length h
  simp [String.length_append] at h2
  exact absurd h2.1 (by decide)

end Aurora

deriving instance DecidableEq for Except

namespace Aurora

/-- C1 (code evaluated at the failing input): the spec guarantees that
normalization never itself fails, but on a model binding a symbol to the
rational 2/3 — whose decimal expansion does not terminate within the 10
digits passed to `as_decimal` — the decimal string carries the inexactness
marker, `float()` raises, and normalization aborts with an error instead of
producing a one-entry output. -/
theorem normalize_fails_on_nonterminating_rational :
    normalizeModel [("y", EngineValue.ratVal (mkRat 2 3))] =
      Except.error "could not convert string to float: 0.6666666666?" := by
  decide

/-- C2: whenever the engine raises during submission or checking, or model
normalization raises, the handler answers with HTTP 400 whose detail is the
non-empty string `Error processing constraint: <message>`; no
`SolverResponse` is produced (the result is the error branch), and every
error the handler returns for this request has status 400, never 500. -/
theorem failures_yield_400 (engine : String → EngineOutcome) (c msg : String)
    (h : engine c = EngineOutcome.raises msg ∨
      ∃ m, engine c = EngineOutcome.sat m ∧ normalizeModel m = Except.error msg) :
    solve_constraint engine c =
        Except.error ⟨400, "Error processing constraint: " ++ msg⟩ ∧
      "Error processing constraint: " ++ msg ≠ "" ∧
      ∀ e, solve_constraint engine c = Except.error e → e.status = 400 := by
  have hmain : solve_constraint engine c =
      Except.error ⟨400, "Error processing constraint: " ++ msg⟩ := by
    rcases h with h | ⟨m, hm, hnorm⟩
    · simp [solve_constraint, h]
    · simp [solve_constraint, hm, hnorm]
  refine ⟨hmain, errorDetail_ne_empty msg, ?_⟩
  intro e he
  rw [hmain] at he
  cases he
  rfl

/-- C2 witness: a concrete engine whose submission raises a parse error. -/
theorem failures_yield_400_witness :
    solve_constraint (fun _ => EngineOutcome.raises "parse error") "bad input" =
        Except.error ⟨400, "Error processing constraint: parse error"⟩ ∧
      "Error processing constraint: parse error" ≠ "" ∧
      ∀ e, solve_constraint (fun _ => EngineOutcome.raises "parse error") "bad input" =
        Except.error e → e.status = 400 :=
  failures_yield_400 (fun _ => EngineOutcome.raises "parse error") "bad input"
    "parse error" (Or.inl rfl)

end Aurora

namespace Aurora

/-- C3: for every successfully handled request, the model field is non-null
exactly when `check_result` is `sat`; verdict `unsat` gives the response
`{check_result: "unsat", model: null}` and verdict `unknown` gives the
response `{check_result: "unknown", model: null}` — a successful response,
not an error. -/
theorem model_nonnull_iff_sat (engine : String → EngineOutcome) (c : String)
    (resp : SolverResponse) (h : solve_constraint engine c = Except.ok resp) :
    (resp.model ≠ none ↔ resp.check_result = "sat") ∧
      (engine c = EngineOutcome.unsat → resp = ⟨"unsat", none⟩) ∧
      (engine c = EngineOutcome.unknown → resp = ⟨"unknown", none⟩) := by
  cases heng : engine c with
  | raises msg =>
      simp only [solve_constraint, heng] at h
      exact Except.noConfusion h
  | sat m =>
      cases hnorm : normalizeModel m with
      | error e =>
          simp only [solve_constraint, heng, hnorm] at h
          exact Except.noConfusion h
      | ok arr =>
          simp only [solve_constraint, heng, hnorm] at h
          injection h with h
          subst h
          refine ⟨by simp, by simp, by simp⟩
  | unsat =>
      simp only [solve_constraint, heng] at h
      injection h with h
      subst h
      refine ⟨by simp, fun _ => rfl, by simp⟩
  | unknown =>
      simp only [solve_constraint, heng] at h
      injection h with h
      subst h
      refine ⟨by simp, by simp, fun _ => rfl⟩

/-- C3 witness: a concrete engine reporting `unsat`. -/
theorem model_nonnull_iff_sat_witness :
    ((⟨"unsat", none⟩ : SolverResponse).model ≠ none ↔
        (⟨"unsat", none⟩ : SolverResponse).check_result = "sat") ∧
      ((fun _ => EngineOutcome.unsat) "c" = EngineOutcome.unsat →
        (⟨"unsat", none⟩ : SolverResponse) = ⟨"unsat", none⟩) ∧
      ((fun _ => EngineOutcome.unsat) "c" = EngineOutcome.unknown →
        (⟨"unsat", none⟩ : SolverResponse) = ⟨"unknown", none⟩) :=
  model_nonnull_iff_sat (fun _ => EngineOutcome.unsat) "c" ⟨"unsat", none⟩ rfl

/-- C4 (code evaluated at the failing input): the spec says a rational
decodes — for every rational, 1/3 included — to a decimal approximation
with 10 fractional digits; instead, `as_decimal` renders 1/3 with the
trailing inexactness marker and `float()` raises, so decoding fails. -/
theorem rational_decode_fails_on_one_third :
    decodeValue (EngineValue.ratVal (mkRat 1 3)) =
      Except.error "could not convert string to float: 0.3333333333?" := by
  decide

/-- C5 counterexample: the engine value 2^63 is an integer outside the
signed 64-bit range; the code decodes it to the exact integer 2^63
(`as_long` is arbitrary-precision), which is not a 64-bit signed integer,
so the claim "decodes as a 64-bit signed integer equal to the exact
integer value" fails at this input. -/
theorem int_decode_not_64bit :
    decodeValue (EngineValue.intVal (2 ^ 63)) =
        Except.ok (JsonValue.int (2 ^ 63)) ∧
      ¬ (-(2 ^ 63) ≤ (2 ^ 63 : ℤ) ∧ (2 ^ 63 : ℤ) ≤ 2 ^ 63 - 1) := by
  exact ⟨by decide, by decide⟩

/-- C5 as amended: an integer-valued symbol decodes to the exact
arbitrary-precision integer (hence to a 64-bit signed integer whenever the
value lies within the signed 64-bit range); a boolean decodes to the exact
boolean and a string to the exact unquoted string content. -/
theorem exact_scalar_decoding :
    (∀ n : ℤ, decodeValue (EngineValue.intVal n) = Except.ok (JsonValue.int n)) ∧
      (∀ b : Bool, decodeValue (EngineValue.boolVal b) = Except.ok (JsonValue.bool b)) ∧
      (∀ s : String, decodeValue (EngineValue.strVal s) = Except.ok (JsonValue.str s)) :=
  ⟨fun _ => rfl, fun _ => rfl, fun _ => rfl⟩

/-- C6: whenever normalization of a satisfiable-verdict model succeeds, the
output lists the declared names in exactly the engine's enumeration order,
and each output entry is the fully populated pair of the declaration's
textual name with its decoded value. -/
theorem normalized_order_and_pairing (m : EngineModel) (out : List ModelEntry)
    (h : normalizeModel m = Except.ok out) :
    out.map ModelEntry.name = m.map Prod.fst ∧
      List.Forall₂
        (fun (d : String × EngineValue) (e : ModelEntry) =>
          e.name = d.1 ∧ decodeValue d.2 = Except.ok e.value) m out := by
  induction m generalizing out with
  | nil =>
      rw [normalizeModel] at h
      cases h
      exact ⟨rfl, List.Forall₂.nil⟩
  | cons d rest ih =>
      obtain ⟨name, val⟩ := d
      rw [normalizeModel] at h
      cases hd : decodeValue val with
      | error e => rw [hd] at h; cases h
      | ok v =>
          rw [hd] at h
          cases ht : normalizeModel rest with
          | error e => rw [ht] at h; cases h
          | ok tail =>
              rw [ht] at h
              cases h
              obtain ⟨ih1, ih2⟩ := ih tail ht
              exact ⟨by simp [ih1], List.Forall₂.cons ⟨rfl, hd⟩ ih2⟩

/-- C6 witness: a concrete two-entry model in engine order. -/
theorem normalized_order_and_pairing_witness :
    ([⟨"x", JsonValue.int 5⟩, ⟨"b", JsonValue.bool true⟩] : List ModelEntry).map
        ModelEntry.name =
      ([("x", EngineValue.intVal 5), ("b", EngineValue.boolVal true)] :
        EngineModel).map Prod.fst ∧
      List.Forall₂
        (fun (d : String × EngineValue) (e : ModelEntry) =>
          e.name = d.1 ∧ decodeValue d.2 = Except.ok e.value)
        [("x", EngineValue.intVal 5), ("b", EngineValue.boolVal true)]
        [⟨"x", JsonValue.int 5⟩, ⟨"b", JsonValue.bool true⟩] :=
  normalized_order_and_pairing
    [("x", EngineValue.intVal 5), ("b", EngineValue.boolVal true)]
    [⟨"x", JsonValue.int 5⟩, ⟨"b", JsonValue.bool true⟩] rfl

end Aurora

namespace Aurora

/-- C7: on the concrete input `(declare-const x Int)(assert (= x 5))`, with
the engine reporting `sat` and the single declaration `x` bound to the
integer 5, the handler returns exactly
`{check_result: "sat", model: [{name: "x", value: 5}]}`. -/
theorem concrete_sat_x_eq_5 (engine : String → EngineOutcome)
    (h : engine "(declare-const x Int)(assert (= x 5))" =
      EngineOutcome.sat [("x", EngineValue.intVal 5)]) :
    solve_constraint engine "(declare-const x Int)(assert (= x 5))" =
      Except.ok ⟨"sat", some [⟨"x", JsonValue.int 5⟩]⟩ := by
  simp only [solve_constraint, h]
  rfl

/-- C7 witness: a concrete engine exhibiting exactly that behaviour. -/
theorem concrete_sat_x_eq_5_witness :
    solve_constraint (fun _ => EngineOutcome.sat [("x", EngineValue.intVal 5)])
        "(declare-const x Int)(assert (= x 5))" =
      Except.ok ⟨"sat", some [⟨"x", JsonValue.int 5⟩]⟩ :=
  concrete_sat_x_eq_5 (fun _ => EngineOutcome.sat [("x", EngineValue.intVal 5)]) rfl

/-- C8: serving a batch of requests is a plain map of the handler over the
batch — the response at position `i` is a function of request `i` alone
(each request gets a fresh solver session; the module shares no state) — so
two requests carrying the same constraint text receive identical responses,
in particular the same `check_result` and the same `{name, value}` pairs. -/
theorem request_isolation_idempotence (engine : String → EngineOutcome)
    (reqs : List String) (i j : ℕ) (hsame : reqs[i]? = reqs[j]?) :
    (handleRequests engine reqs)[i]? = (reqs[i]?).map (solve_constraint engine) ∧
      (handleRequests engine reqs)[i]? = (handleRequests engine reqs)[j]? := by
  constructor
  · simp [handleRequests, List.getElem?_map]
  · simp [handleRequests, List.getElem?_map, hsame]

/-- C8 witness: a batch of two requests with the same constraint text. -/
theorem request_isolation_idempotence_witness :
    (handleRequests (fun _ => EngineOutcome.unknown) ["c", "c"])[0]? =
        ((["c", "c"] : List String)[0]?).map
          (solve_constraint (fun _ => EngineOutcome.unknown)) ∧
      (handleRequests (fun _ => EngineOutcome.unknown) ["c", "c"])[0]? =
        (handleRequests (fun _ => EngineOutcome.unknown) ["c", "c"])[1]? :=
  request_isolation_idempotence (fun _ => EngineOutcome.unknown) ["c", "c"] 0 1 rfl

/-- C9: a `sat` verdict over a model with zero declarations yields
`check_result = "sat"` with the model equal to the empty array — which is
non-null, hence distinguishable from the null model of the `unsat` and
`unknown` responses. -/
theorem sat_empty_model_gives_empty_array (engine : String → EngineOutcome)
    (c : String) (h : engine c = EngineOutcome.sat []) :
    solve_constraint engine c = Except.ok ⟨"sat", some []⟩ ∧
      some ([] : List ModelEntry) ≠ none := by
  refine ⟨?_, by simp⟩
  simp only [solve_constraint, h]
  rfl

/-- C9 witness: a concrete engine reporting `sat` with an empty model. -/
theorem sat_empty_model_gives_empty_array_witness :
    solve_constraint (fun _ => EngineOutcome.sat []) "(assert true)" =
        Except.ok ⟨"sat", some []⟩ ∧
      some ([] : List ModelEntry) ≠ none :=
  sat_empty_model_gives_empty_array (fun _ => EngineOutcome.sat []) "(assert true)" rfl

/-- C10: an integer engine value outside the signed 64-bit range is decoded
to the mathematically exact integer — neither truncated, wrapped, nor
rejected — because `as_long` converts the numeral string to an
arbitrary-precision integer; normalization succeeds with that value. -/
theorem bignum_integer_exact (n : ℤ)
    (hn : n < -(2 ^ 63) ∨ (2 ^ 63 : ℤ) - 1 < n) :
    normalizeModel [("x", EngineValue.intVal n)] =
      Except.ok [⟨"x", JsonValue.int n⟩] := rfl

/-- C10 witness: the 101-bit integer 2^100 normalizes exactly. -/
theorem bignum_integer_exact_witness :
    normalizeModel [("x", EngineValue.intVal (2 ^ 100))] =
      Except.ok [⟨"x", JsonValue.int (2 ^ 100)⟩] :=
  bignum_integer_exact (2 ^ 100) (Or.inr (by norm_num))

end Aurora
